import Mathlib

set_option maxHeartbeats 1000000

/-!
Shallow embedding of `src/spead.py` (SPEAD packet decoding) and proofs of the
specification's claims about it.  Machine words are `Nat` values below `2 ^ 64`;
Python's `>>`, `&` and `%` on nonnegative ints are `>>>`, `&&&` and `%` on
`Nat`.  Each raise/assert site of the source is one constructor of
`SpeadError`.
-/

namespace Spead

/-- Errors of the SPEAD decoding routines, one constructor per raise/assert
site of `spead.py`.  `headerCountMismatch` is the assertion inside
`decode_spead_magic_word`; `headerCountMismatchPost` is the distinct post-loop
`RuntimeError` in `SpeadPacket.from_data`.  `indexError` models Python list
indexing out of range.  `payloadLengthMismatch` models the
`pktlen != expected_length` raise site; in Python 2 an int compares unequal to
`None`, so that site also fires when `expected_length` is `None`. -/
inductive SpeadError where
  | magicMismatch
  | reservedFieldNonzero
  | versionMismatch
  | flavourMismatch
  | headerCountMismatch
  | duplicateHeaderId
  | headerCountMismatchPost
  | payloadLengthMismatch
  | lengthFieldMismatch
  | indexError
  deriving DecidableEq, Repr

/-- Decoded magic word, the dict returned by `decode_spead_magic_word`. -/
structure MagicHeader where
  magic_number : Nat
  version : Nat
  id_bits : Nat
  address_bits : Nat
  reserved : Nat
  num_headers : Nat
  flavour : String
  deriving DecidableEq, Repr

/-- Python pattern `if required is not None: assert actual == required`:
true when the requirement is present and violated. -/
def reqViolated {α : Type} [DecidableEq α] (required : Option α) (actual : α) : Bool :=
  match required with
  | none => false
  | some r => decide (actual ≠ r)

/-- Embedding of `decode_spead_magic_word` (spead.py lines 9-42). -/
def decode_spead_magic_word (word64 : Nat) (required_version : Option Nat)
    (required_flavour : Option String) (required_numheaders : Option Nat) :
    Except SpeadError MagicHeader :=
  let magic_number := word64 >>> 56
  let spead_version := (word64 >>> 48) &&& 0xff
  let spead_id_width := (word64 >>> 40) &&& 0xff
  let spead_addr_width := (word64 >>> 32) &&& 0xff
  let reserved := (word64 >>> 16) &&& 0xffff
  let num_headers := word64 &&& 0xffff
  let spead_flavour :=
    toString (spead_addr_width * 8 + spead_id_width * 8) ++ "," ++
      toString (spead_addr_width * 8)
  if magic_number ≠ 83 then .error .magicMismatch
  else if reserved ≠ 0 then .error .reservedFieldNonzero
  else if reqViolated required_version spead_version then .error .versionMismatch
  else if reqViolated required_flavour spead_flavour then .error .flavourMismatch
  else if reqViolated required_numheaders num_headers then .error .headerCountMismatch
  else .ok
    { magic_number := magic_number
      version := spead_version
      id_bits := spead_id_width * 8
      address_bits := spead_addr_width * 8
      reserved := reserved
      num_headers := num_headers
      flavour := spead_flavour }

/-- Embedding of `decode_item_pointer` (spead.py lines 60-73): split a header
word into the id portion (immediate-addressing top bit cleared via the mask
`2 ^ (id_bits - 1) - 1` when set) and the data/pointer portion. -/
def decode_item_pointer (header64 id_bits address_bits : Nat) : Nat × Nat :=
  let hdr_id := header64 >>> address_bits
  let hdr_id :=
    if hdr_id &&& 2 ^ (id_bits - 1) ≠ 0 then hdr_id &&& (2 ^ (id_bits - 1) - 1)
    else hdr_id
  let hdr_data := header64 &&& (2 ^ address_bits - 1)
  (hdr_id, hdr_data)

/-- Value stored in a packet's header map: the key `0x0000` holds the decoded
magic header, every other key holds the 64-bit data/pointer of one item
pointer. -/
inductive HeaderVal where
  | magic (mh : MagicHeader)
  | item (v : Nat)
  deriving DecidableEq, Repr

/-- A SPEAD packet: insertion-ordered header map and payload words. -/
structure SpeadPacket where
  headers : List (Nat × HeaderVal)
  data : List Nat
  deriving DecidableEq, Repr

/-- Header loop of `SpeadPacket.from_data` (spead.py lines 94-101): consume
`remaining` header words starting at index `ctr`, extending the
insertion-ordered map `headers` and tracking `packet_length` (the value of
header id `0x0004`, sentinel `-1` while absent). -/
def headerLoop (data : List Nat) (id_bits address_bits : Nat) (ctr remaining : Nat)
    (headers : List (Nat × HeaderVal)) (packet_length : Int) :
    Except SpeadError (List (Nat × HeaderVal) × Int) :=
  match remaining with
  | 0 => .ok (headers, packet_length)
  | r + 1 =>
    match data[ctr]? with
    | none => .error .indexError
    | some w =>
      let hdr_id := (decode_item_pointer w id_bits address_bits).1
      let hdr_data := (decode_item_pointer w id_bits address_bits).2
      if (headers.lookup hdr_id).isSome then .error .duplicateHeaderId
      else
        headerLoop data id_bits address_bits (ctr + 1) r
          (headers ++ [(hdr_id, .item hdr_data)])
          (if hdr_id = 0x0004 then (hdr_data : Int) else packet_length)

/-- Embedding of `SpeadPacket.from_data` (spead.py lines 84-117).  The payload
length check `pktlen != expected_length` is unconditional in the source; when
`expected_length` is `None`, Python 2 evaluates `int != None` as true, so that
branch raises for every packet (modelled by the `none` case below). -/
def SpeadPacket.from_data (data : List Nat) (expected_version : Option Nat)
    (expected_flavour : Option String) (expected_hdrs : Option Nat)
    (expected_length : Option Nat) : Except SpeadError SpeadPacket :=
  match data[0]? with
  | none => .error .indexError
  | some w0 =>
    match decode_spead_magic_word w0 expected_version expected_flavour expected_hdrs with
    | .error e => .error e
    | .ok main_header =>
      match headerLoop data main_header.id_bits main_header.address_bits 1
          main_header.num_headers [(0x0000, .magic main_header)] (-1) with
      | .error e => .error e
      | .ok (headers, packet_length) =>
        if reqViolated (expected_hdrs.map (· + 1)) headers.length then
          .error .headerCountMismatchPost
        else
          let pktdata := data.drop (main_header.num_headers + 1)
          let pktlen := pktdata.length
          let lengthMatches : Bool :=
            match expected_length with
            | none => false
            | some l => decide (pktlen = l)
          if ¬lengthMatches then .error .payloadLengthMismatch
          else if (pktlen * 8 : Int) ≠ packet_length then .error .lengthFieldMismatch
          else .ok { headers := headers, data := pktdata }

/-- State of a `SpeadProcessor` (spead.py lines 149-161): configuration set at
construction plus the accumulated packet list. -/
structure SpeadProcessor where
  packets : List SpeadPacket
  version : Option Nat
  flavour : Option String
  expected_num_headers : Option Nat
  expected_packet_length : Option Nat
  deriving Repr

/-- Embedding of `SpeadProcessor.process_data` (spead.py lines 163-170):
assemble each word sequence in order, appending each packet to the internal
list; the first failure stops processing and propagates, leaving the packets
appended so far in place. -/
def SpeadProcessor.process_data (sp : SpeadProcessor) (data_packets : List (List Nat)) :
    SpeadProcessor × Option SpeadError :=
  match data_packets with
  | [] => (sp, none)
  | pkt :: rest =>
    match SpeadPacket.from_data pkt sp.version sp.flavour sp.expected_num_headers
        sp.expected_packet_length with
    | .error e => (sp, some e)
    | .ok p =>
      SpeadProcessor.process_data { sp with packets := sp.packets ++ [p] } rest

end Spead

namespace Spead

/-! Helper lemmas shared between the claims. -/

/-- Testing a single bit with a mask agrees with `Nat.testBit`. -/
lemma and_two_pow_ne_zero_iff (n i : Nat) : n &&& 2 ^ i ≠ 0 ↔ n.testBit i = true := by
  rw [Nat.and_two_pow]
  cases h : n.testBit i <;> simp [h]

/-- A successful magic-word decode under a header-count expectation fixes
`num_headers` to the expected value. -/
lemma decode_magic_num_headers (w : Nat) (rv : Option Nat) (rf : Option String)
    (eh : Nat) (mh : MagicHeader)
    (h : decode_spead_magic_word w rv rf (some eh) = .ok mh) :
    mh.num_headers = eh := by
  dsimp only [decode_spead_magic_word] at h
  split at h
  · exact absurd h (by simp)
  · split at h
    · exact absurd h (by simp)
    · split at h
      · exact absurd h (by simp)
      · split at h
        · exact absurd h (by simp)
        · split at h
          · exact absurd h (by simp)
          · rename_i hnv
            simp only [reqViolated, Bool.not_eq_true, decide_eq_false_iff_not,
              Decidable.not_not] at hnv
            cases h
            exact hnv

end Spead

namespace Spead

/-- C6: every 64-bit word whose top byte (bits 56-63) differs from 83 makes
`decode_spead_magic_word` fail with `magicMismatch`, whatever the other fields
of the word and whatever expectations are supplied. -/
theorem decode_magic_mismatch (w : Nat) (hw : w < 2 ^ 64) (h : w >>> 56 ≠ 83)
    (rv : Option Nat) (rf : Option String) (rn : Option Nat) :
    decode_spead_magic_word w rv rf rn = .error .magicMismatch := by
  dsimp only [decode_spead_magic_word]
  simp [h]

/-- Witness for C6 at the word 0, whose top byte is 0. -/
theorem decode_magic_mismatch_witness :
    (0 : Nat) < 2 ^ 64 ∧ (0 : Nat) >>> 56 ≠ 83 ∧
      decode_spead_magic_word 0 none none none = .error .magicMismatch :=
  ⟨by decide, by decide, decode_magic_mismatch 0 (by decide) (by decide) none none none⟩

/-- C7, counterexample: the word `1 <<< 16` has nonzero reserved bits 16-31,
yet `decode_spead_magic_word` fails with `magicMismatch` (the magic check runs
first), not with `reservedFieldNonzero` as the claim states. -/
theorem reserved_claim_counterexample :
    ((1 <<< 16 : Nat) >>> 16) &&& 0xffff ≠ 0 ∧
      decode_spead_magic_word (1 <<< 16) none none none ≠ .error .reservedFieldNonzero ∧
      decode_spead_magic_word (1 <<< 16) none none none = .error .magicMismatch := by
  refine ⟨by decide, ?_, by rfl⟩
  intro h
  rw [show decode_spead_magic_word (1 <<< 16) none none none = .error .magicMismatch
    from rfl] at h
  exact absurd h (by simp)

/-- C7, amended: every 64-bit word whose top byte equals 83 and whose reserved
bits 16-31 are nonzero makes `decode_spead_magic_word` fail with
`reservedFieldNonzero`, whatever expectations are supplied. -/
theorem decode_reserved_nonzero (w : Nat) (hw : w < 2 ^ 64) (hm : w >>> 56 = 83)
    (h : (w >>> 16) &&& 0xffff ≠ 0)
    (rv : Option Nat) (rf : Option String) (rn : Option Nat) :
    decode_spead_magic_word w rv rf rn = .error .reservedFieldNonzero := by
  dsimp only [decode_spead_magic_word]
  simp [hm, h]

/-- Witness for the amended C7 at the word with magic byte 83 and reserved
field 1. -/
theorem decode_reserved_nonzero_witness :
    (83 <<< 56 + 1 <<< 16 : Nat) < 2 ^ 64 ∧
      decode_spead_magic_word (83 <<< 56 + 1 <<< 16) none none none =
        .error .reservedFieldNonzero :=
  ⟨by decide,
    decode_reserved_nonzero (83 <<< 56 + 1 <<< 16) (by decide) (by decide) (by decide)
      none none none⟩

/-- C3: for every 64-bit word with top byte 83 and zero reserved bits,
`decode_spead_magic_word` with no expectations succeeds and returns exactly
the version (bits 48-55), `id_bits` = (bits 40-47) * 8, `address_bits` =
(bits 32-39) * 8, `num_headers` = bits 0-15, and the flavour string
`"{id_bits+address_bits},{address_bits}"`. -/
theorem decode_magic_ok (w : Nat) (hw : w < 2 ^ 64) (hm : w >>> 56 = 83)
    (hr : (w >>> 16) &&& 0xffff = 0) :
    decode_spead_magic_word w none none none = .ok
      { magic_number := 83
        version := (w >>> 48) &&& 0xff
        id_bits := ((w >>> 40) &&& 0xff) * 8
        address_bits := ((w >>> 32) &&& 0xff) * 8
        reserved := 0
        num_headers := w &&& 0xffff
        flavour :=
          toString (((w >>> 40) &&& 0xff) * 8 + ((w >>> 32) &&& 0xff) * 8) ++ "," ++
            toString (((w >>> 32) &&& 0xff) * 8) } := by
  dsimp only [decode_spead_magic_word]
  rw [hm, hr]
  simp [reqViolated, Nat.add_comm]

/-- Witness for C3 at a concrete well-formed magic word (version 4, id width
2 bytes, address width 6 bytes, 7 headers). -/
theorem decode_magic_ok_witness :
    (83 <<< 56 + 4 <<< 48 + 2 <<< 40 + 6 <<< 32 + 7 : Nat) < 2 ^ 64 ∧
      decode_spead_magic_word (83 <<< 56 + 4 <<< 48 + 2 <<< 40 + 6 <<< 32 + 7)
        none none none = .ok
        { magic_number := 83, version := 4, id_bits := 16, address_bits := 48,
          reserved := 0, num_headers := 7, flavour := "64,48" } := by
  refine ⟨by decide, ?_⟩
  have h := decode_magic_ok (83 <<< 56 + 4 <<< 48 + 2 <<< 40 + 6 <<< 32 + 7)
    (by decide) (by decide) (by decide)
  rw [h]
  rfl

end Spead

namespace Spead

/-- C4: for every word and valid bit widths (each at least 1 and at most 64),
`decode_item_pointer` is a pure total function returning the pair whose value
part is `word mod 2 ^ address_bits` (the low `address_bits` bits) and whose id
part is `word >>> address_bits`, reduced by the immediate-addressing mask
`2 ^ (id_bits - 1) - 1` exactly when bit `id_bits - 1` is set, and unchanged
otherwise. -/
theorem decode_item_pointer_spec (w id_bits address_bits : Nat)
    (hid : 1 ≤ id_bits) (hid64 : id_bits ≤ 64)
    (had : 1 ≤ address_bits) (had64 : address_bits ≤ 64) :
    decode_item_pointer w id_bits address_bits =
      (if (w >>> address_bits).testBit (id_bits - 1) then
          (w >>> address_bits) % 2 ^ (id_bits - 1)
        else w >>> address_bits,
        w % 2 ^ address_bits) := by
  dsimp only [decode_item_pointer]
  rw [Nat.and_pow_two_sub_one_eq_mod, Nat.and_pow_two_sub_one_eq_mod]
  by_cases h : (w >>> address_bits).testBit (id_bits - 1)
  · rw [if_pos ((and_two_pow_ne_zero_iff _ _).mpr h), if_pos h]
  · rw [if_neg (fun hc => h ((and_two_pow_ne_zero_iff _ _).mp hc)), if_neg h]

/-- Witness for C4 with `id_bits = 16`, `address_bits = 48`, at a word whose
id field has the immediate-addressing bit set. -/
theorem decode_item_pointer_spec_witness :
    (1 : Nat) ≤ 16 ∧ (16 : Nat) ≤ 64 ∧ (1 : Nat) ≤ 48 ∧ (48 : Nat) ≤ 64 ∧
      decode_item_pointer (0x8005 <<< 48 + 9) 16 48 =
        (if ((0x8005 <<< 48 + 9 : Nat) >>> 48).testBit 15 then
            ((0x8005 <<< 48 + 9 : Nat) >>> 48) % 2 ^ 15
          else (0x8005 <<< 48 + 9 : Nat) >>> 48,
          (0x8005 <<< 48 + 9 : Nat) % 2 ^ 48) :=
  ⟨by decide, by decide, by decide, by decide,
    decode_item_pointer_spec (0x8005 <<< 48 + 9) 16 48 (by decide) (by decide)
      (by decide) (by decide)⟩

/-- C1 (the code side of the claim): a structurally consistent packet (magic
word with one header, header `0x0004 = 8`, one payload word) fails with
`payloadLengthMismatch` when `expected_length` is not given, because the
source compares `pktlen != expected_length` unconditionally and in Python 2 an
int is never equal to `None`; supplying the actual length `1` makes the same
packet assemble. -/
theorem payload_check_fires_without_expectation :
    SpeadPacket.from_data
        [83 <<< 56 + 4 <<< 48 + 2 <<< 40 + 6 <<< 32 + 1, 4 <<< 48 + 8, 77]
        none none none none = .error .payloadLengthMismatch ∧
      SpeadPacket.from_data
        [83 <<< 56 + 4 <<< 48 + 2 <<< 40 + 6 <<< 32 + 1, 4 <<< 48 + 8, 77]
        none none none (some 1) = .ok
        { headers :=
            [(0, .magic
              { magic_number := 83, version := 4, id_bits := 16, address_bits := 48,
                reserved := 0, num_headers := 1, flavour := "64,48" }),
              (4, .item 8)],
          data := [77] } :=
  ⟨rfl, rfl⟩

/-- C9: `SpeadPacket.from_data` is deterministic and idempotent: two runs on
the same word sequence with the same expectations either both fail with the
same error, or both return packets with identical insertion-ordered header
maps and identical payloads. -/
theorem from_data_deterministic (data : List Nat) (ev : Option Nat) (ef : Option String)
    (eh el : Option Nat) :
    (∃ e, SpeadPacket.from_data data ev ef eh el = .error e ∧
        SpeadPacket.from_data data ev ef eh el = .error e) ∨
      (∃ p q, SpeadPacket.from_data data ev ef eh el = .ok p ∧
        SpeadPacket.from_data data ev ef eh el = .ok q ∧
        p.headers = q.headers ∧ p.data = q.data) := by
  cases h : SpeadPacket.from_data data ev ef eh el with
  | error e => exact .inl ⟨e, rfl, rfl⟩
  | ok p => exact .inr ⟨p, p, rfl, rfl, rfl, rfl⟩

end Spead

namespace Spead

/-- Looking a key up in an appended association list resolves on the left part
first. -/
lemma lookup_append (a : Nat) (l₁ l₂ : List (Nat × HeaderVal)) :
    (l₁ ++ l₂).lookup a =
      match l₁.lookup a with
      | some v => some v
      | none => l₂.lookup a := by
  induction l₁ with
  | nil => simp
  | cons x l ih =>
    cases x with
    | mk k v =>
      cases h : (a == k) <;> simp [List.lookup_cons, h, ih]

/-- A key just appended on the right is always found. -/
lemma lookup_append_self (a : Nat) (b : HeaderVal) (l : List (Nat × HeaderVal)) :
    ((l ++ [(a, b)]).lookup a).isSome = true := by
  rw [lookup_append]
  cases h : l.lookup a with
  | none => simp [List.lookup_cons]
  | some v => simp

/-- A key found on the left is still found after appending on the right. -/
lemma lookup_isSome_append (a : Nat) (l₁ l₂ : List (Nat × HeaderVal))
    (h : (l₁.lookup a).isSome = true) : ((l₁ ++ l₂).lookup a).isSome = true := by
  rw [lookup_append]
  cases hl : l₁.lookup a with
  | none => rw [hl] at h; simp at h
  | some v => simp

/-- Each successfully consumed header word adds exactly one entry to the
header map. -/
lemma headerLoop_length (data : List Nat) (ib ab : Nat) :
    ∀ (remaining ctr : Nat) (hs : List (Nat × HeaderVal)) (pl : Int)
      (out : List (Nat × HeaderVal) × Int),
      headerLoop data ib ab ctr remaining hs pl = .ok out →
      out.1.length = hs.length + remaining := by
  intro remaining
  induction remaining with
  | zero =>
    intro ctr hs pl out h
    unfold headerLoop at h
    cases h
    simp
  | succ r ih =>
    intro ctr hs pl out h
    unfold headerLoop at h
    cases hd : data[ctr]? with
    | none => rw [hd] at h; exact absurd h (by simp)
    | some w =>
      rw [hd] at h
      dsimp only at h
      split at h
      · exact absurd h (by simp)
      · have hlen := ih (ctr + 1) _ _ _ h
        simp only [List.length_append, List.length_cons, List.length_nil] at hlen
        omega

/-- Invariant of `headerLoop`: the running `packet_length` tracks the value
filed under header id `0x0004` whenever that id is present as an item. -/
lemma headerLoop_lookup4 (data : List Nat) (ib ab : Nat) :
    ∀ (remaining ctr : Nat) (hs : List (Nat × HeaderVal)) (pl : Int)
      (out : List (Nat × HeaderVal) × Int),
      headerLoop data ib ab ctr remaining hs pl = .ok out →
      (∀ v : Nat, hs.lookup 4 = some (.item v) → pl = v) →
      ∀ v : Nat, out.1.lookup 4 = some (.item v) → out.2 = v := by
  intro remaining
  induction remaining with
  | zero =>
    intro ctr hs pl out h hinv
    unfold headerLoop at h
    cases h
    exact hinv
  | succ r ih =>
    intro ctr hs pl out h hinv
    unfold headerLoop at h
    cases hd : data[ctr]? with
    | none => rw [hd] at h; exact absurd h (by simp)
    | some w =>
      rw [hd] at h
      dsimp only at h
      split at h
      · exact absurd h (by simp)
      · rename_i hnodup
        refine ih (ctr + 1) _ _ _ h ?_
        intro v hv
        rw [lookup_append] at hv
        by_cases h4 : (decode_item_pointer w ib ab).1 = 4
        · have hnone : hs.lookup (4 : Nat) = none := by
            rw [← h4]
            cases hls : hs.lookup (decode_item_pointer w ib ab).1 with
            | none => rfl
            | some q => rw [hls] at hnodup; simp at hnodup
          rw [hnone] at hv
          dsimp only at hv
          rw [h4] at hv
          simp only [List.lookup_cons, beq_self_eq_true, cond_true, List.lookup_nil,
            Option.some.injEq, HeaderVal.item.injEq] at hv
          rw [if_pos h4, hv]
        · rw [if_neg h4]
          cases hls : hs.lookup (4 : Nat) with
          | some q =>
            rw [hls] at hv
            dsimp only at hv
            injection hv with hq
            subst hq
            exact hinv v hls
          | none =>
            rw [hls] at hv
            dsimp only at hv
            have hbeq : ((4 : Nat) == (decode_item_pointer w ib ab).1) = false :=
              beq_eq_false_iff_ne.mpr (fun hc => h4 hc.symm)
            simp only [List.lookup_cons, hbeq, cond_false, List.lookup_nil] at hv
            exact absurd hv (by simp)

end Spead

namespace Spead

/-- Inversion of a successful assembly: the magic decode and the header loop
succeeded, the payload is the tail after the header block, and the final
length-field comparison tied the payload length to the tracked
`packet_length`. -/
lemma from_data_ok_inversion (data : List Nat) (ev : Option Nat) (ef : Option String)
    (eh el : Option Nat) (pkt : SpeadPacket)
    (h : SpeadPacket.from_data data ev ef eh el = .ok pkt) :
    ∃ (w0 : Nat) (mh : MagicHeader) (pl : Int),
      data[0]? = some w0 ∧
      decode_spead_magic_word w0 ev ef eh = .ok mh ∧
      headerLoop data mh.id_bits mh.address_bits 1 mh.num_headers
        [(0, .magic mh)] (-1) = .ok (pkt.headers, pl) ∧
      pkt.data = data.drop (mh.num_headers + 1) ∧
      ((pkt.data.length : Int) * 8) = pl := by
  unfold SpeadPacket.from_data at h
  split at h
  · exact absurd h (by simp)
  · rename_i w0 hw0
    split at h
    · exact absurd h (by simp)
    · rename_i mh hmh
      split at h
      · exact absurd h (by simp)
      · rename_i hs pl hloop
        split at h
        · exact absurd h (by simp)
        · dsimp only at h
          split at h
          · exact absurd h (by simp)
          · split at h
            · exact absurd h (by simp)
            · rename_i hne
              cases h
              refine ⟨w0, mh, pl, hw0, hmh, hloop, rfl, ?_⟩
              have := Decidable.of_not_not hne
              simpa using this

end Spead

namespace Spead

/-- C2: every packet returned by `SpeadPacket.from_data` satisfies the
declared-length invariant: a present header id `0x0004` equals
`8 * len(payload)`.  Concretely (supplying the payload-length expectation as
the actual payload count, so that the length-field check is the deciding one),
a packet declaring 16 bytes assembles with exactly 2 payload words, and fails
with `lengthFieldMismatch` with 1 or 3 payload words. -/
theorem length_invariant (data : List Nat) (ev : Option Nat) (ef : Option String)
    (eh el : Option Nat) (pkt : SpeadPacket) (v : Nat)
    (hok : SpeadPacket.from_data data ev ef eh el = .ok pkt)
    (h4 : pkt.headers.lookup 0x0004 = some (.item v)) :
    v = 8 * pkt.data.length ∧
      SpeadPacket.from_data
        [83 <<< 56 + 4 <<< 48 + 2 <<< 40 + 6 <<< 32 + 1, 4 <<< 48 + 16, 77, 78]
        none none none (some 2) = .ok
        { headers :=
            [(0, .magic
              { magic_number := 83, version := 4, id_bits := 16, address_bits := 48,
                reserved := 0, num_headers := 1, flavour := "64,48" }),
              (4, .item 16)],
          data := [77, 78] } ∧
      SpeadPacket.from_data
        [83 <<< 56 + 4 <<< 48 + 2 <<< 40 + 6 <<< 32 + 1, 4 <<< 48 + 16, 77]
        none none none (some 1) = .error .lengthFieldMismatch ∧
      SpeadPacket.from_data
        [83 <<< 56 + 4 <<< 48 + 2 <<< 40 + 6 <<< 32 + 1, 4 <<< 48 + 16, 77, 78, 79]
        none none none (some 3) = .error .lengthFieldMismatch := by
  refine ⟨?_, rfl, rfl, rfl⟩
  obtain ⟨w0, mh, pl, hw0, hmh, hloop, hdata, hlen⟩ :=
    from_data_ok_inversion data ev ef eh el pkt hok
  have hpl := headerLoop_lookup4 data mh.id_bits mh.address_bits mh.num_headers 1
    [(0, .magic mh)] (-1) (pkt.headers, pl) hloop ?_ v h4
  · have hvl : (pkt.data.length : Int) * 8 = (v : Int) := hlen.trans hpl
    omega
  · intro u hu
    simp [List.lookup_cons] at hu

/-- Witness for C2: the 2-payload-word packet of the claim, whose header
`0x0004` holds 16 = 8 * 2. -/
theorem length_invariant_witness :
    (16 : Nat) = 8 * 2 ∧
      SpeadPacket.from_data
        [83 <<< 56 + 4 <<< 48 + 2 <<< 40 + 6 <<< 32 + 1, 4 <<< 48 + 16, 77, 78]
        none none none (some 2) = .ok
        { headers :=
            [(0, .magic
              { magic_number := 83, version := 4, id_bits := 16, address_bits := 48,
                reserved := 0, num_headers := 1, flavour := "64,48" }),
              (4, .item 16)],
          data := [77, 78] } ∧
      SpeadPacket.from_data
        [83 <<< 56 + 4 <<< 48 + 2 <<< 40 + 6 <<< 32 + 1, 4 <<< 48 + 16, 77]
        none none none (some 1) = .error .lengthFieldMismatch ∧
      SpeadPacket.from_data
        [83 <<< 56 + 4 <<< 48 + 2 <<< 40 + 6 <<< 32 + 1, 4 <<< 48 + 16, 77, 78, 79]
        none none none (some 3) = .error .lengthFieldMismatch :=
  length_invariant
    [83 <<< 56 + 4 <<< 48 + 2 <<< 40 + 6 <<< 32 + 1, 4 <<< 48 + 16, 77, 78]
    none none none (some 2)
    { headers :=
        [(0, .magic
          { magic_number := 83, version := 4, id_bits := 16, address_bits := 48,
            reserved := 0, num_headers := 1, flavour := "64,48" }),
          (4, .item 16)],
      data := [77, 78] } 16 (by rfl) (by rfl)

end Spead

namespace Spead

/-- Discriminator for the post-loop header-count error of
`SpeadPacket.from_data`. -/
def isHeaderCountPostError : Except SpeadError SpeadPacket → Bool
  | .error .headerCountMismatchPost => true
  | _ => false

/-- The magic-word decoder never produces the post-loop header-count error. -/
lemma decode_magic_error_ne_post (w : Nat) (rv : Option Nat) (rf : Option String)
    (rn : Option Nat) (e : SpeadError)
    (h : decode_spead_magic_word w rv rf rn = .error e) :
    e ≠ .headerCountMismatchPost := by
  dsimp only [decode_spead_magic_word] at h
  split at h
  · cases h; decide
  · split at h
    · cases h; decide
    · split at h
      · cases h; decide
      · split at h
        · cases h; decide
        · split at h
          · cases h; decide
          · exact absurd h (by simp)

/-- The header loop fails only with `indexError` or `duplicateHeaderId`. -/
lemma headerLoop_error_cases (data : List Nat) (ib ab : Nat) :
    ∀ (remaining ctr : Nat) (hs : List (Nat × HeaderVal)) (pl : Int) (e : SpeadError),
      headerLoop data ib ab ctr remaining hs pl = .error e →
      e = .indexError ∨ e = .duplicateHeaderId := by
  intro remaining
  induction remaining with
  | zero =>
    intro ctr hs pl e h
    unfold headerLoop at h
    exact absurd h (by simp)
  | succ r ih =>
    intro ctr hs pl e h
    unfold headerLoop at h
    cases hd : data[ctr]? with
    | none => rw [hd] at h; dsimp only at h; cases h; exact .inl rfl
    | some w =>
      rw [hd] at h
      dsimp only at h
      split at h
      · cases h; exact .inr rfl
      · exact ih _ _ _ _ h

/-- C10: whenever a header-count expectation is given, the magic decode of
`words[0]` succeeds and the header loop finishes without a failure, the header
map holds exactly `expected_num_headers + 1` entries; consequently the
post-loop header-count branch of `SpeadPacket.from_data` is unreachable on
every input, and a header-count mismatch can only arise from the magic-word
decode itself. -/
theorem post_header_count_unreachable (data : List Nat) (ev : Option Nat)
    (ef : Option String) (eh : Nat) (el : Option Nat) (w0 : Nat) (mh : MagicHeader)
    (hs : List (Nat × HeaderVal)) (pl : Int)
    (h0 : data[0]? = some w0)
    (hmh : decode_spead_magic_word w0 ev ef (some eh) = .ok mh)
    (hloop : headerLoop data mh.id_bits mh.address_bits 1 mh.num_headers
      [(0, .magic mh)] (-1) = .ok (hs, pl)) :
    hs.length = eh + 1 ∧
      ∀ (d : List Nat) (v : Option Nat) (f : Option String) (g l : Option Nat),
        isHeaderCountPostError (SpeadPacket.from_data d v f g l) = false := by
  constructor
  · have hl := headerLoop_length data mh.id_bits mh.address_bits mh.num_headers 1
      [(0, .magic mh)] (-1) (hs, pl) hloop
    have hnum := decode_magic_num_headers w0 ev ef eh mh hmh
    simp only [List.length_cons, List.length_nil] at hl
    omega
  · intro d v f g l
    unfold SpeadPacket.from_data
    cases hd0 : d[0]? with
    | none => rfl
    | some u0 =>
      dsimp only
      cases hdm : decode_spead_magic_word u0 v f g with
      | error e =>
        dsimp only
        have hne := decode_magic_error_ne_post u0 v f g e hdm
        cases e
        case headerCountMismatchPost => exact absurd rfl hne
        all_goals rfl
      | ok nh =>
        dsimp only
        cases hdl : headerLoop d nh.id_bits nh.address_bits 1 nh.num_headers
            [(0, .magic nh)] (-1) with
        | error e =>
          dsimp only
          rcases headerLoop_error_cases d nh.id_bits nh.address_bits nh.num_headers 1
            [(0, .magic nh)] (-1) e hdl with he | he <;> subst he <;> rfl
        | ok out =>
          cases out with
          | mk hs2 pl2 =>
            dsimp only
            have hfalse : reqViolated (g.map (· + 1)) hs2.length = false := by
              cases g with
              | none => rfl
              | some gg =>
                have hn := decode_magic_num_headers u0 v f gg nh hdm
                have hl2 := headerLoop_length d nh.id_bits nh.address_bits
                  nh.num_headers 1 [(0, .magic nh)] (-1) (hs2, pl2) hdl
                have hl3 : hs2.length = 1 + nh.num_headers := by simpa using hl2
                simp only [reqViolated, Option.map, decide_eq_false_iff_not,
                  Decidable.not_not, ne_eq]
                omega
            split
            · rename_i hviol
              rw [hfalse] at hviol
              exact absurd hviol (by simp)
            · split
              · rfl
              · split
                · rfl
                · rfl

/-- Witness for C10 at a concrete packet with one header and a matching
expectation. -/
theorem post_header_count_unreachable_witness :
    ([((0 : Nat), HeaderVal.magic
        { magic_number := 83, version := 4, id_bits := 16, address_bits := 48,
          reserved := 0, num_headers := 1, flavour := "64,48" }),
      ((4 : Nat), HeaderVal.item 8)]).length = 1 + 1 ∧
      ∀ (d : List Nat) (v : Option Nat) (f : Option String) (g l : Option Nat),
        isHeaderCountPostError (SpeadPacket.from_data d v f g l) = false :=
  post_header_count_unreachable
    [83 <<< 56 + 4 <<< 48 + 2 <<< 40 + 6 <<< 32 + 1, 4 <<< 48 + 8, 77]
    none none 1 none (83 <<< 56 + 4 <<< 48 + 2 <<< 40 + 6 <<< 32 + 1)
    { magic_number := 83, version := 4, id_bits := 16, address_bits := 48,
      reserved := 0, num_headers := 1, flavour := "64,48" }
    [((0 : Nat), HeaderVal.magic
        { magic_number := 83, version := 4, id_bits := 16, address_bits := 48,
          reserved := 0, num_headers := 1, flavour := "64,48" }),
      ((4 : Nat), HeaderVal.item 8)] 8
    (by rfl) (by rfl) (by rfl)

end Spead

namespace Spead

/-- Inside the header loop, an id already present in the map, or two upcoming
header words sharing an id, force the `duplicateHeaderId` failure. -/
lemma headerLoop_dup (data : List Nat) (ib ab : Nat) :
    ∀ (remaining ctr : Nat) (hs : List (Nat × HeaderVal)) (pl : Int),
      ((∃ k, ctr ≤ k ∧ k < ctr + remaining ∧ ∃ hk : k < data.length,
          ((hs.lookup (decode_item_pointer data[k] ib ab).1).isSome = true)) ∨
        (∃ i j, ctr ≤ i ∧ i < j ∧ j < ctr + remaining ∧
          ∃ hj : j < data.length, ∃ hi : i < data.length,
            (decode_item_pointer data[i] ib ab).1 =
              (decode_item_pointer data[j] ib ab).1)) →
      headerLoop data ib ab ctr remaining hs pl = .error .duplicateHeaderId := by
  intro remaining
  induction remaining with
  | zero =>
    intro ctr hs pl hcase
    rcases hcase with ⟨k, h1, h2, _⟩ | ⟨i, j, h1, h2, h3, _⟩ <;> omega
  | succ r ih =>
    intro ctr hs pl hcase
    have hctr : ctr < data.length := by
      rcases hcase with ⟨k, h1, h2, hk, _⟩ | ⟨i, j, h1, h2, h3, hj, hi, _⟩ <;> omega
    unfold headerLoop
    rw [List.getElem?_eq_getElem hctr]
    dsimp only
    by_cases hdup : (hs.lookup (decode_item_pointer data[ctr] ib ab).1).isSome = true
    · rw [if_pos hdup]
    · rw [if_neg hdup]
      rcases hcase with ⟨k, h1, h2, hk, hsome⟩ | ⟨i, j, h1, h2, h3, hj, hi, heq⟩
      · have hkc : ctr < k := by
          rcases Nat.lt_or_ge ctr k with h | h
          · exact h
          · have hke : k = ctr := by omega
            subst hke
            exact absurd hsome hdup
        exact ih (ctr + 1) _ _
          (.inl ⟨k, by omega, by omega, hk, lookup_isSome_append _ _ _ hsome⟩)
      · by_cases hic : i = ctr
        · subst hic
          refine ih (i + 1) _ _ (.inl ⟨j, by omega, by omega, hj, ?_⟩)
          rw [← heq]
          exact lookup_append_self _ _ _
        · exact ih (ctr + 1) _ _
            (.inr ⟨i, j, by omega, h2, by omega, hj, hi, heq⟩)

/-- C5: whenever the magic decode of `words[0]` succeeds and two header words
inside the header block `words[1 ..= num_headers]` decode to the same id
under the magic header's bit widths, `SpeadPacket.from_data` fails with
`duplicateHeaderId` and no packet is returned. -/
theorem from_data_duplicate (data : List Nat) (ev : Option Nat) (ef : Option String)
    (eh el : Option Nat) (w0 : Nat) (mh : MagicHeader)
    (h0 : data[0]? = some w0)
    (hmh : decode_spead_magic_word w0 ev ef eh = .ok mh)
    (i j : Nat) (h1i : 1 ≤ i) (hij : i < j) (hjn : j ≤ mh.num_headers)
    (hi : i < data.length) (hj : j < data.length)
    (heq : (decode_item_pointer data[i] mh.id_bits mh.address_bits).1 =
      (decode_item_pointer data[j] mh.id_bits mh.address_bits).1) :
    SpeadPacket.from_data data ev ef eh el = .error .duplicateHeaderId := by
  unfold SpeadPacket.from_data
  rw [h0]
  dsimp only
  rw [hmh]
  dsimp only
  rw [headerLoop_dup data mh.id_bits mh.address_bits mh.num_headers 1
    [(0, .magic mh)] (-1) (.inr ⟨i, j, h1i, hij, by omega, hj, hi, heq⟩)]

/-- Witness for C5: a packet announcing two headers whose two header words
both carry id 5. -/
theorem from_data_duplicate_witness :
    SpeadPacket.from_data
      [83 <<< 56 + 4 <<< 48 + 2 <<< 40 + 6 <<< 32 + 2, 5 <<< 48 + 8, 5 <<< 48 + 9]
      none none none none = .error .duplicateHeaderId :=
  from_data_duplicate
    [83 <<< 56 + 4 <<< 48 + 2 <<< 40 + 6 <<< 32 + 2, 5 <<< 48 + 8, 5 <<< 48 + 9]
    none none none none (83 <<< 56 + 4 <<< 48 + 2 <<< 40 + 6 <<< 32 + 2)
    { magic_number := 83, version := 4, id_bits := 16, address_bits := 48,
      reserved := 0, num_headers := 2, flavour := "64,48" }
    (by rfl) (by rfl) 1 2 (by decide) (by decide) (by decide) (by decide) (by decide)
    (by decide)

end Spead

namespace Spead

/-- C8: `SpeadProcessor.process_data` assembles the word sequences in input
order, appending each packet to the internal list, which only ever grows by
appending; the first assembly failure propagates immediately, later sequences
are not processed, and the packets appended before the failure remain in the
list in input order. -/
theorem process_data_spec (sp : SpeadProcessor) (seqs : List (List Nat)) :
    ∃ (pre post : List (List Nat)) (ps : List SpeadPacket),
      seqs = pre ++ post ∧
      pre.mapM (fun s => SpeadPacket.from_data s sp.version sp.flavour
        sp.expected_num_headers sp.expected_packet_length) = Except.ok ps ∧
      (sp.process_data seqs).1.packets = sp.packets ++ ps ∧
      (match (sp.process_data seqs).2 with
        | none => post = []
        | some e => ∃ s rest, post = s :: rest ∧
            SpeadPacket.from_data s sp.version sp.flavour sp.expected_num_headers
              sp.expected_packet_length = .error e) := by
  induction seqs generalizing sp with
  | nil =>
    refine ⟨[], [], [], rfl, by rfl, ?_, ?_⟩
    · simp [SpeadProcessor.process_data]
    · simp [SpeadProcessor.process_data]
  | cons s rest ih =>
    cases hfd : SpeadPacket.from_data s sp.version sp.flavour sp.expected_num_headers
        sp.expected_packet_length with
    | error e =>
      refine ⟨[], s :: rest, [], rfl, by rfl, ?_, ?_⟩
      · unfold SpeadProcessor.process_data
        rw [hfd]
        simp
      · unfold SpeadProcessor.process_data
        rw [hfd]
        exact ⟨s, rest, rfl, hfd⟩
    | ok p =>
      obtain ⟨pre, post, ps, hsplit, hmap, hpk, herr⟩ :=
        ih { sp with packets := sp.packets ++ [p] }
      dsimp only at hmap hpk herr
      refine ⟨s :: pre, post, p :: ps, by simp [hsplit], ?_, ?_, ?_⟩
      · simp only [List.mapM_cons, hfd, hmap]
        rfl
      · unfold SpeadProcessor.process_data
        rw [hfd, hpk]
        simp
      · unfold SpeadProcessor.process_data
        rw [hfd]
        exact herr

end Spead
